import Mathlib

/-!
Verification of the model/optimization core of `opennmt/models/model.py`.

The development shallowly embeds the data model and the operations of the
`Model` base class: tensors are lists of real numbers (idealized float
arithmetic), a gradient list is one tensor per trainable parameter,
configuration dictionaries become structures of optional fields (a missing
dictionary key is `none`, and Python `dict.get(k, d)` becomes `Option.getD`).
External collaborators (the optimizer's differentiation and update rules, the
regularization penalty) are passed as explicit function arguments, matching
the specification's external-interface table.  Python exceptions are embedded
as the `Except` error channel with the specification's error taxonomy.
-/

namespace OpenNMT

/-- A tensor, flattened to its list of scalar entries (idealized reals). -/
abbrev Tensor := List ℝ

/-- A gradient list: one gradient tensor per trainable parameter, in
parameter order. -/
abbrev GradList := List Tensor

/-- The `regularization` entry of the training configuration:
`regularization["type"]` and `regularization["scale"]`. -/
structure Regularization where
  type : String
  scale : ℝ

/-- Training hyperparameters consumed by `compute_gradients` and
`apply_gradients`: the `regularization`, `clip_gradients` and
`gradients_accum` keys of the `params` dictionary (a `none` field is a
missing key). -/
structure TrainConfig where
  regularization : Option Regularization
  clip_gradients : Option ℝ
  gradients_accum : Option ℕ

/-- Error taxonomy of the specification (section 7).  A Python `KeyError`
raised while reading a required configuration key surfaces as
`configurationError` with that key; `uninitializedModelError` is the error
the specification assigns to gradient calls on an unallocated model (the
embedding shows the code never produces it). -/
inductive ModelError where
  | configurationError (key : String)
  | uninitializedModelError

/-- The lazily allocated state of a `Model`: the Keras `built` flag and the
parameter set (`none` while no variables have been allocated). -/
structure ModelVars where
  built : Bool
  params : Option (List Tensor)

/-- `self.trainable_variables`: the allocated parameters, or the empty list
when no variables exist yet. -/
def trainable_variables (m : ModelVars) : List Tensor :=
  m.params.getD []

/-- `Model.build` (lines 64-66): forwards to the inputter's build and sets
`self.built = True`.  It allocates no model parameter. -/
def build (m : ModelVars) : ModelVars :=
  { m with built := true }

/-- Optimizer-internal state touched by `create_variables` (lines 205-208):
whether the `iterations` variable, the hyperparameter variables and the
per-parameter slots have been created, and for which variable list the slots
were made. -/
structure OptState where
  iterations : Bool
  hypers : Bool
  slots : Option (List Tensor)

/-- `Model.create_variables` (lines 192-208).  `dryRun` stands for the
parameter set that the traced dry-run forward pass
(`_run.get_concrete_function()`) would allocate; the guard `if self.built:
return` fires before anything else.  When the dry run executes, the Keras
call builds the model and allocates its variables, after which the supplied
optimizer's iterations variable, hyperparameters and slots are created for
`self.trainable_variables`. -/
def create_variables (dryRun : List Tensor) (m : ModelVars)
    (optimizer : Option OptState) : ModelVars × Option OptState :=
  if m.built then (m, optimizer)
  else
    let m2 : ModelVars := { built := true, params := some dryRun }
    match optimizer with
    | none => (m2, none)
    | some _ =>
      (m2, some { iterations := true, hypers := true,
                  slots := some (trainable_variables m2) })

/-- `Model.compute_metrics` (lines 101-112): ignores its arguments and
returns `None`. -/
def compute_metrics {α β : Type} (predictions : α) (labels : Option β) :
    Option (List (String × ℝ)) :=
  none

/-- Sum of squared entries over a gradient list, the radicand of the
combined (global) norm. -/
def sum_sq (gs : GradList) : ℝ :=
  (gs.map (fun t => (t.map (fun x => x ^ 2)).sum)).sum

/-- The combined norm of a gradient list:
`sqrt (sum of the squared entries of every tensor)`. -/
noncomputable def global_norm (gs : GradList) : ℝ :=
  Real.sqrt (sum_sq gs)

/-- Modelled from the spec: `tf.clip_by_global_norm` (an external TensorFlow
function whose body is not under `src/`), per specification section 4.3 item
4 — a single scalar multiplier applied uniformly to all gradients so their
combined norm does not exceed the threshold, leaving the gradients unchanged
if already under the threshold.  Returns the clipped list and the input
norm, matching the `gradients, _ = tf.clip_by_global_norm(...)`
destructuring at line 164. -/
noncomputable def clip_by_global_norm (t_list : GradList) (clip_norm : ℝ) :
    GradList × ℝ :=
  let use_norm := global_norm t_list
  (if use_norm ≤ clip_norm then t_list
   else t_list.map (fun t => t.map (fun x => x * (clip_norm / use_norm))),
   use_norm)

/-- The clipping stage of `compute_gradients` (lines 162-164): clip by
global norm when the `clip_gradients` key is present, otherwise pass the
gradients through. -/
noncomputable def clip_step (params : TrainConfig) (gradients : GradList) :
    GradList :=
  match params.clip_gradients with
  | some t => (clip_by_global_norm gradients t).1
  | none => gradients

/-- `Model.compute_gradients` (lines 141-165).  `penalty` is the external
`optim.regularization_penalty` collaborator and `get_grads` the optimizer's
`get_gradients` capability, both injected per the specification's external
interface table.  `variablesOpt = none` is the Python default, resolved to
`self.trainable_variables`.  The result is returned on the `Except` error
channel so that failure behaviour can be stated; the body raises on no
path. -/
noncomputable def compute_gradients (m : ModelVars)
    (penalty : String → ℝ → List Tensor → ℝ)
    (get_grads : ℝ → List Tensor → GradList)
    (loss : ℝ) (variablesOpt : Option (List Tensor))
    (params : TrainConfig) : Except ModelError GradList :=
  let vars := variablesOpt.getD (trainable_variables m)
  let loss2 :=
    match params.regularization with
    | some r => loss + penalty r.type r.scale vars
    | none => loss
  let gradients := get_grads loss2 vars
  Except.ok (clip_step params gradients)

/-- Whether an `Except` result is a success. -/
def exceptOk {ε α : Type} : Except ε α → Bool
  | Except.ok _ => true
  | Except.error _ => false

/-- The hyperparameter dictionary read by `get_optimizer` (lines 114-139);
each optional field is one recognized key, `none` when the key is absent.
Schedule-specific and optimizer-specific parameter sub-dictionaries are kept
opaque as association lists. -/
structure Params where
  learning_rate : Option ℝ
  decay_type : Option String
  decay_params : Option (List (String × ℝ))
  decay_step_duration : Option ℕ
  start_decay_steps : Option ℕ
  minimum_learning_rate : Option ℝ
  optimizer : Option String
  optimizer_params : Option (List (String × ℝ))

/-- The empty hyperparameter dictionary `{}` substituted when
`params is None`. -/
def emptyParams : Params :=
  ⟨none, none, none, none, none, none, none, none⟩

/-- The learning rate an optimizer is bound to: either the constant base
rate, or a decay schedule together with every argument `get_optimizer`
passes to build it. -/
inductive LearningRate where
  | constant (lr : ℝ)
  | schedule (initial : ℝ) (decayType : String)
      (scheduleParams : List (String × ℝ)) (scheduleStepDuration : ℕ)
      (startStep : ℕ) (minimumLearningRate : ℝ)

/-- An optimizer value as `get_optimizer` constructs it: the selected update
rule, the learning rate it is bound to, and its extra hyperparameters. -/
structure Optimizer where
  name : String
  learningRate : LearningRate
  optimizerParams : List (String × ℝ)

/-- Modelled from the spec: `optim.make_learning_rate_schedule`
(`opennmt/utils/optim.py`, not under `src/`) — a pure factory wrapping the
base rate into a `LearningRateSchedule`; the embedding records the arguments
the caller passes (specification section 4.5). -/
def make_learning_rate_schedule (initial : ℝ) (decayType : String)
    (scheduleParams : List (String × ℝ)) (scheduleStepDuration : ℕ)
    (startStep : ℕ) (minimumLearningRate : ℝ) : LearningRate :=
  LearningRate.schedule initial decayType scheduleParams scheduleStepDuration
    startStep minimumLearningRate

/-- Modelled from the spec: `optim.make_optimizer` (`opennmt/utils/optim.py`,
not under `src/`) — a pure factory returning an optimizer bound to the given
learning rate and hyperparameters (specification section 4.5). -/
def make_optimizer (name : String) (lr : LearningRate)
    (optimizerParams : List (String × ℝ)) : Optimizer :=
  ⟨name, lr, optimizerParams⟩

/-- `Model.get_optimizer` (lines 114-139).  A `None` dictionary becomes `{}`;
the required keys `learning_rate` (line 125) and `optimizer` (line 136) are
read with bracket access, so a missing one raises `KeyError` — embedded as a
`configurationError` naming the key; the optional decay keys are read with
`dict.get` and its defaults (`decay_params={}`, `decay_step_duration=1`,
`start_decay_steps=0`, `minimum_learning_rate=0`,
`optimizer_params={}`). -/
def get_optimizer (paramsOpt : Option Params) : Except ModelError Optimizer :=
  let p := paramsOpt.getD emptyParams
  match p.learning_rate with
  | none => Except.error (ModelError.configurationError "learning_rate")
  | some lr =>
    let lrv :=
      match p.decay_type with
      | some dt =>
        make_learning_rate_schedule lr dt (p.decay_params.getD [])
          (p.decay_step_duration.getD 1) (p.start_decay_steps.getD 0)
          (p.minimum_learning_rate.getD 0)
      | none => LearningRate.constant lr
    match p.optimizer with
    | none => Except.error (ModelError.configurationError "optimizer")
    | some name => Except.ok (make_optimizer name lrv (p.optimizer_params.getD []))

/-- Elementwise sum of two gradient lists (tensor by tensor, entry by
entry). -/
def add_grads (a b : GradList) : GradList :=
  List.zipWith (List.zipWith (· + ·)) a b

/-- Elementwise sum of a sequence of gradient lists (the gradients of the
accumulated micro-batches). -/
def sum_grads : List GradList → GradList
  | [] => []
  | g :: rest => rest.foldl add_grads g

/-- The mutable optimization state threaded through `apply_gradients`: the
trainable variables, the external step counter, the gradient-accumulator
buffers (`none` encodes all-zero buffers, which hold exactly when the call
counter is `0`) and the accumulator call counter. -/
structure OptimState where
  vars : List Tensor
  step : ℕ
  accum : Option GradList
  count : ℕ

/-- Modelled from the spec: `optim.delayed_update` (`opennmt/utils/optim.py`,
not under `src/`), per specification section 4.4.  Each call adds the paired
gradients into the accumulator buffers and increments the call counter; while
the counter stays below `accum_count` nothing else changes; when it reaches
`accum_count` the optimizer's update rule `apply_upd` runs once on the
accumulated sums paired with their variables (unpaired variables keep their
values), the external step counter is incremented by one, and the buffers and
counter reset. -/
def delayed_update (apply_upd : List (Tensor × Tensor) → List Tensor)
    (grads_and_vars : List (Tensor × Tensor)) (accum_count : ℕ)
    (st : OptimState) : OptimState :=
  let gs := grads_and_vars.map Prod.fst
  let new_accum :=
    match st.accum with
    | none => gs
    | some bs => add_grads bs gs
  let c := st.count + 1
  if c = accum_count then
    { vars := apply_upd (new_accum.zip (grads_and_vars.map Prod.snd))
        ++ st.vars.drop grads_and_vars.length,
      step := st.step + 1,
      accum := none,
      count := 0 }
  else
    { st with accum := some new_accum, count := c }

/-- `Model.apply_gradients` (lines 167-190): pairs the gradients with the
trainable variables positionally via `zip` (line 188) and delegates to
`delayed_update` with `accum_count = params.get("gradients_accum", 1)`.
`apply_upd` is the external optimizer's update rule. -/
def apply_gradients (apply_upd : List (Tensor × Tensor) → List Tensor)
    (gradients : GradList) (params : TrainConfig) (st : OptimState) :
    OptimState :=
  delayed_update apply_upd (gradients.zip st.vars)
    (params.gradients_accum.getD 1) st

/-- A sequence of `apply_gradients` calls, one per gradient list, from a
given optimization state. -/
def apply_calls (apply_upd : List (Tensor × Tensor) → List Tensor)
    (params : TrainConfig) (gss : List GradList) (st : OptimState) :
    OptimState :=
  gss.foldl (fun s g => apply_gradients apply_upd g params s) st

/-- The accumulator contents after summing a prefix of gradient lists:
all-zero (`none`) for the empty prefix, the elementwise partial sum
otherwise. -/
def accum_of : List GradList → Option GradList
  | [] => none
  | g :: rest => some (sum_grads (g :: rest))

/-- A concrete regularization penalty (an L1-style scaled sum) used to
instantiate the external `regularization_penalty` collaborator in
witnesses. -/
def pen0 : String → ℝ → List Tensor → ℝ :=
  fun _ scale vars => scale * (vars.map List.sum).sum

/-- A concrete gradient computation (every entry differentiates to the loss
value) used to instantiate the optimizer's `get_gradients` capability in
witnesses. -/
def gg0 : ℝ → List Tensor → GradList :=
  fun l vars => vars.map (fun t => t.map (fun _ => l))

/-- A concrete L2 regularization configuration entry with scale 1. -/
def regL2 : Regularization := ⟨"l2", 1⟩

/-- C8: for every predictions value and every labels value, absent (`none`)
labels included, the default `compute_metrics` returns no metrics; it is a
total function of its inputs, so it never fails. -/
theorem compute_metrics_returns_none {α β : Type} (predictions : α)
    (labels : Option β) : compute_metrics predictions labels = none :=
  rfl

/-- C3: `create_variables` is idempotent — whatever the starting model state
and supplied optimizer, a second call after a first one returns the model
state of the first call unchanged (same parameter set, membership and
shapes) and leaves the second optimizer argument untouched, because the
second call finds the model built and returns immediately. -/
theorem create_variables_idempotent (d1 d2 : List Tensor) (m : ModelVars)
    (o1 o2 : Option OptState) :
    create_variables d2 (create_variables d1 m o1).1 o2 =
      ((create_variables d1 m o1).1, o2) := by
  unfold create_variables
  by_cases h : m.built
  · simp [h]
  · cases o1 <;> simp [h]

/-- C9: a model whose `built` flag was set by `build` but whose parameters
were never allocated makes a later `create_variables` return immediately:
no dry run, no parameter allocation (`params` stays `none`), and the
supplied optimizer's state is left untouched — the guard tests only the
`built` flag, not whether the parameter set is populated. -/
theorem create_variables_built_guard (m : ModelVars) (o : OptState)
    (dryRun : List Tensor) (hm : m.params = none) :
    (build m).built = true ∧ (build m).params = none ∧
    create_variables dryRun (build m) (some o) = (build m, some o) := by
  refine ⟨rfl, ?_, ?_⟩
  · simpa [build] using hm
  · simp [create_variables, build]

/-- Witness for C9 at a concrete unallocated model and a concrete optimizer
whose state records that nothing was created, showing it stays that way. -/
theorem create_variables_built_guard_witness :
    (build ⟨false, none⟩).built = true ∧ (build ⟨false, none⟩).params = none ∧
    create_variables [[(1:ℝ)]] (build ⟨false, none⟩) (some ⟨false, false, none⟩) =
      (build ⟨false, none⟩, some ⟨false, false, none⟩) :=
  create_variables_built_guard ⟨false, none⟩ ⟨false, false, none⟩ [[(1:ℝ)]] rfl

/-- C2 counterexample: on a model with no allocated parameters,
`compute_gradients` does not fail with `uninitializedModelError` — it
silently proceeds with the empty trainable-variables list and returns the
empty gradient list. -/
theorem compute_gradients_no_uninitialized_check :
    compute_gradients ⟨false, none⟩ pen0 gg0 1 none ⟨none, none, none⟩ =
      Except.ok [] ∧
    compute_gradients ⟨false, none⟩ pen0 gg0 1 none ⟨none, none, none⟩ ≠
      Except.error ModelError.uninitializedModelError := by
  constructor
  · simp [compute_gradients, trainable_variables, gg0, clip_step]
  · simp [compute_gradients, trainable_variables, gg0, clip_step]

/-- C2 amended: calling `compute_gradients` on a model whose parameters are
not yet allocated does not fail — the call silently proceeds with the empty
trainable-variables list and succeeds. -/
theorem compute_gradients_uninitialized_proceeds (m : ModelVars)
    (penalty : String → ℝ → List Tensor → ℝ)
    (get_grads : ℝ → List Tensor → GradList) (loss : ℝ) (cfgP : TrainConfig)
    (hm : m.params = none) :
    trainable_variables m = [] ∧
    exceptOk (compute_gradients m penalty get_grads loss none cfgP) = true := by
  constructor
  · simp [trainable_variables, hm]
  · rfl

/-- Witness for the amended C2 at a concrete unallocated model. -/
theorem compute_gradients_uninitialized_proceeds_witness :
    trainable_variables ⟨false, none⟩ = [] ∧
    exceptOk (compute_gradients ⟨false, none⟩ pen0 gg0 1 none
      ⟨none, none, none⟩) = true :=
  compute_gradients_uninitialized_proceeds ⟨false, none⟩ pen0 gg0 1
    ⟨none, none, none⟩ rfl

/-- C5: when the `regularization` key is present, `compute_gradients`
differentiates `loss + penalty(type, scale, vars)` — the penalty added
exactly once, evaluated on the current variable values, before gradients are
taken; when the key is absent the loss is differentiated unmodified. -/
theorem compute_gradients_regularization (m : ModelVars)
    (penalty : String → ℝ → List Tensor → ℝ)
    (get_grads : ℝ → List Tensor → GradList) (loss : ℝ)
    (variablesOpt : Option (List Tensor)) (cfgP : TrainConfig) :
    (∀ r : Regularization, cfgP.regularization = some r →
      compute_gradients m penalty get_grads loss variablesOpt cfgP =
        Except.ok (clip_step cfgP (get_grads
          (loss + penalty r.type r.scale
            (variablesOpt.getD (trainable_variables m)))
          (variablesOpt.getD (trainable_variables m))))) ∧
    (cfgP.regularization = none →
      compute_gradients m penalty get_grads loss variablesOpt cfgP =
        Except.ok (clip_step cfgP (get_grads loss
          (variablesOpt.getD (trainable_variables m))))) := by
  constructor
  · intro r hr
    simp [compute_gradients, hr]
  · intro hr
    simp [compute_gradients, hr]

/-- Witness for C5: with one parameter tensor `[2]`, loss `5`, and the L2
penalty of scale 1 evaluating to `2`, the differentiated loss is `7` and the
returned gradient is `[[7]]`. -/
theorem compute_gradients_regularization_witness :
    compute_gradients ⟨true, some [[(2:ℝ)]]⟩ pen0 gg0 5 none
      ⟨some regL2, none, none⟩ = Except.ok [[(7:ℝ)]] := by
  have h := (compute_gradients_regularization ⟨true, some [[(2:ℝ)]]⟩ pen0 gg0 5
    none ⟨some regL2, none, none⟩).1 regL2 rfl
  rw [h]
  simp [clip_step, gg0, pen0, trainable_variables, regL2]
  norm_num

/-- C6: a configuration missing the `learning_rate` key or the `optimizer`
key makes `get_optimizer` fail at optimizer-construction time with a
configuration error naming a missing key; the key is never defaulted. -/
theorem get_optimizer_missing_key (p : Params)
    (h : p.learning_rate = none ∨ p.optimizer = none) :
    ∃ k, get_optimizer (some p) = Except.error (ModelError.configurationError k) := by
  rcases h with h | h
  · exact ⟨"learning_rate", by simp [get_optimizer, h]⟩
  · rcases hlr : p.learning_rate with _ | lr
    · exact ⟨"learning_rate", by simp [get_optimizer, hlr]⟩
    · exact ⟨"optimizer", by simp [get_optimizer, hlr, h]⟩

/-- Witness for C6 at the empty configuration dictionary. -/
theorem get_optimizer_missing_key_witness :
    ∃ k, get_optimizer (some emptyParams) =
      Except.error (ModelError.configurationError k) :=
  get_optimizer_missing_key emptyParams (Or.inl rfl)

/-- C7: with the required keys present, `get_optimizer` wraps the base rate
into a decay schedule exactly when a decay type is present, passing the
schedule-specific parameters and the defaults — step duration 1, start step
0, minimum floor 0; with no decay type the optimizer is bound to the
constant base learning rate. -/
theorem get_optimizer_decay_schedule (p : Params) (lr : ℝ) (nm : String)
    (hlr : p.learning_rate = some lr) (hopt : p.optimizer = some nm) :
    (∀ dt, p.decay_type = some dt →
      get_optimizer (some p) = Except.ok
        ⟨nm, LearningRate.schedule lr dt (p.decay_params.getD [])
          (p.decay_step_duration.getD 1) (p.start_decay_steps.getD 0)
          (p.minimum_learning_rate.getD 0), p.optimizer_params.getD []⟩) ∧
    (p.decay_type = none →
      get_optimizer (some p) = Except.ok
        ⟨nm, LearningRate.constant lr, p.optimizer_params.getD []⟩) := by
  constructor
  · intro dt hdt
    simp [get_optimizer, hlr, hopt, hdt, make_learning_rate_schedule,
      make_optimizer]
  · intro hdt
    simp [get_optimizer, hlr, hopt, hdt, make_optimizer]

/-- A concrete configuration selecting the Adam optimizer with a noam decay
schedule and no optional decay keys, for the C7 witness. -/
def decayParams7 : Params :=
  ⟨some 2, some "noam", none, none, none, none, some "Adam", none⟩

/-- Witness for C7: the optional decay keys being absent, the schedule is
built with step duration 1, start step 0 and minimum floor 0. -/
theorem get_optimizer_decay_schedule_witness :
    get_optimizer (some decayParams7) = Except.ok
      ⟨"Adam", LearningRate.schedule 2 "noam" [] 1 0 0, []⟩ := by
  have h := (get_optimizer_decay_schedule decayParams7 2 "Adam" rfl rfl).1
    "noam" rfl
  simpa [decayParams7] using h

/-- The squared-entry sum of one tensor is nonnegative. -/
lemma row_sq_nonneg (t : List ℝ) : 0 ≤ (t.map (fun x => x ^ 2)).sum := by
  apply List.sum_nonneg
  intro y hy
  rcases List.mem_map.mp hy with ⟨a, _, rfl⟩
  positivity

/-- The squared-entry sum of a gradient list is nonnegative. -/
lemma sum_sq_nonneg (gs : GradList) : 0 ≤ sum_sq gs := by
  apply List.sum_nonneg
  intro y hy
  rcases List.mem_map.mp hy with ⟨t, _, rfl⟩
  exact row_sq_nonneg t

/-- Scaling one tensor by `c` scales its squared-entry sum by `c ^ 2`. -/
lemma row_sq_scale (t : List ℝ) (c : ℝ) :
    ((t.map (fun x => x * c)).map (fun x => x ^ 2)).sum =
      ((t.map (fun x => x ^ 2)).sum) * c ^ 2 := by
  induction t with
  | nil => simp
  | cons a t ih =>
    simp only [List.map_cons, List.sum_cons, ih]
    ring

/-- Scaling every gradient entry by `c` scales the squared-entry sum by
`c ^ 2`. -/
lemma sum_sq_scale (gs : GradList) (c : ℝ) :
    sum_sq (gs.map (fun t => t.map (fun x => x * c))) = sum_sq gs * c ^ 2 := by
  induction gs with
  | nil => simp [sum_sq]
  | cons t gs ih =>
    simp only [sum_sq, List.map_cons, List.sum_cons] at ih ⊢
    rw [row_sq_scale, ih]
    ring

/-- Scaling every gradient entry by `c` scales the combined norm by
`|c|`. -/
lemma global_norm_scale (gs : GradList) (c : ℝ) :
    global_norm (gs.map (fun t => t.map (fun x => x * c))) =
      |c| * global_norm gs := by
  unfold global_norm
  rw [sum_sq_scale, mul_comm (sum_sq gs) (c ^ 2),
    Real.sqrt_mul (sq_nonneg c), Real.sqrt_sq_eq_abs]

/-- The combined norm is nonnegative. -/
lemma global_norm_nonneg (gs : GradList) : 0 ≤ global_norm gs :=
  Real.sqrt_nonneg _

/-- C4: for a gradient list produced inside `compute_gradients` under a
configuration with `clip_gradients = t` (`t ≥ 0`): if its combined norm is
at most `t`, the returned gradients are exactly the input gradients;
otherwise every entry is rescaled by the single uniform scalar
`t / global_norm gs` and the combined norm of the returned gradients equals
`t`. -/
theorem compute_gradients_clipping (m : ModelVars)
    (penalty : String → ℝ → List Tensor → ℝ)
    (get_grads : ℝ → List Tensor → GradList) (loss : ℝ)
    (variablesOpt : Option (List Tensor)) (cfgP : TrainConfig) (t : ℝ)
    (gs : GradList)
    (hgs : get_grads loss (variablesOpt.getD (trainable_variables m)) = gs)
    (ht : 0 ≤ t) (hclip : cfgP.clip_gradients = some t)
    (hreg : cfgP.regularization = none) :
    (global_norm gs ≤ t →
      compute_gradients m penalty get_grads loss variablesOpt cfgP =
        Except.ok gs) ∧
    (t < global_norm gs →
      compute_gradients m penalty get_grads loss variablesOpt cfgP =
        Except.ok (gs.map (fun tr => tr.map (fun x =>
          x * (t / global_norm gs)))) ∧
      global_norm (gs.map (fun tr => tr.map (fun x =>
        x * (t / global_norm gs)))) = t) := by
  have hbase : compute_gradients m penalty get_grads loss variablesOpt cfgP =
      Except.ok (clip_step cfgP gs) := by
    simp [compute_gradients, hreg, hgs]
  constructor
  · intro hle
    rw [hbase, clip_step, hclip]
    simp [clip_by_global_norm, hle]
  · intro hlt
    have hn : 0 < global_norm gs := lt_of_le_of_lt ht hlt
    constructor
    · rw [hbase, clip_step, hclip]
      simp [clip_by_global_norm, not_le.mpr hlt]
    · rw [global_norm_scale, abs_of_nonneg (div_nonneg ht (le_of_lt hn)),
        div_mul_cancel₀ t (ne_of_gt hn)]

/-- A concrete gradient computation returning the fixed list `[[3, 4]]`
whose combined norm is `5`, for the C4 witness. -/
def gg4 : ℝ → List Tensor → GradList :=
  fun _ _ => [[(3:ℝ), 4]]

/-- Witness for C4: with threshold `5` and gradients `[[3, 4]]` of combined
norm exactly `5`, the clipping branch leaves the gradients unchanged. -/
theorem compute_gradients_clipping_witness :
    compute_gradients ⟨true, some []⟩ pen0 gg4 1 none ⟨none, some 5, none⟩ =
      Except.ok [[(3:ℝ), 4]] := by
  have h5 : global_norm [[(3:ℝ), 4]] = 5 := by
    have : sum_sq [[(3:ℝ), 4]] = 25 := by
      simp [sum_sq]
      norm_num
    rw [global_norm, this, show (25:ℝ) = 5 ^ 2 by norm_num]
    exact Real.sqrt_sq (by norm_num)
  exact (compute_gradients_clipping ⟨true, some []⟩ pen0 gg4 1 none
    ⟨none, some 5, none⟩ 5 [[(3:ℝ), 4]] rfl (by norm_num) rfl rfl).1
    (le_of_eq h5)

/-- Appending one more gradient list to a nonempty sequence adds it
elementwise into the running sum. -/
lemma sum_grads_concat (q : GradList) (t : List GradList) (g : GradList) :
    sum_grads (q :: (t ++ [g])) = add_grads (sum_grads (q :: t)) g := by
  simp [sum_grads, List.foldl_append]

/-- One `apply_gradients` call that does not reach the accumulation count:
the gradients are added into the buffers and the counter advances, while the
variables and the step counter stay untouched. -/
lemma apply_gradients_no_commit (apply_upd : List (Tensor × Tensor) → List Tensor)
    (params : TrainConfig) (N : ℕ) (hacc : params.gradients_accum = some N)
    (g : GradList) (p₀ : List Tensor) (s₀ : ℕ) (acc : Option GradList) (k : ℕ)
    (hg : g.length = p₀.length) (hk : k + 1 ≠ N) :
    apply_gradients apply_upd g params ⟨p₀, s₀, acc, k⟩ =
      ⟨p₀, s₀, some (match acc with | none => g | some bs => add_grads bs g),
        k + 1⟩ := by
  cases acc <;>
    simp [apply_gradients, delayed_update, hacc, hk,
      List.map_fst_zip g p₀ (le_of_eq hg)]

/-- One `apply_gradients` call that reaches the accumulation count: the
optimizer update runs once on the accumulated sums paired with the
variables, the step counter advances by one, and the accumulator resets. -/
lemma apply_gradients_commit (apply_upd : List (Tensor × Tensor) → List Tensor)
    (params : TrainConfig) (N : ℕ) (hacc : params.gradients_accum = some N)
    (g : GradList) (p₀ : List Tensor) (s₀ : ℕ) (acc : Option GradList) (k : ℕ)
    (hg : g.length = p₀.length) (hk : k + 1 = N) :
    apply_gradients apply_upd g params ⟨p₀, s₀, acc, k⟩ =
      ⟨apply_upd ((match acc with
          | none => g
          | some bs => add_grads bs g).zip p₀), s₀ + 1, none, 0⟩ := by
  cases acc <;>
    simp [apply_gradients, delayed_update, hacc, hk,
      List.map_fst_zip g p₀ (le_of_eq hg),
      List.map_snd_zip g p₀ (le_of_eq hg.symm), hg]

/-- Running `apply_gradients` over fewer gradient lists than the
accumulation count, from a fresh state: the variables and step counter are
untouched; the accumulator holds the elementwise partial sum and the call
counter the number of calls. -/
lemma apply_calls_accumulating (apply_upd : List (Tensor × Tensor) → List Tensor)
    (params : TrainConfig) (N : ℕ) (hacc : params.gradients_accum = some N)
    (p₀ : List Tensor) (s₀ : ℕ) :
    ∀ pre : List GradList, pre.length < N →
      (∀ g ∈ pre, g.length = p₀.length) →
      apply_calls apply_upd params pre ⟨p₀, s₀, none, 0⟩ =
        ⟨p₀, s₀, accum_of pre, pre.length⟩ := by
  intro pre
  induction pre using List.reverseRecOn with
  | nil =>
    intro _ _
    simp [apply_calls, accum_of]
  | append_singleton qs g ih =>
    intro hlen hsh
    have hlen2 : qs.length + 1 < N := by simpa using hlen
    have hq := ih (by omega)
      (fun x hx => hsh x (List.mem_append_left _ hx))
    have hg : g.length = p₀.length :=
      hsh g (List.mem_append_right _ (List.mem_singleton.mpr rfl))
    have hsplit : apply_calls apply_upd params (qs ++ [g]) ⟨p₀, s₀, none, 0⟩ =
        apply_gradients apply_upd g params
          (apply_calls apply_upd params qs ⟨p₀, s₀, none, 0⟩) := by
      simp [apply_calls, List.foldl_append]
    rw [hsplit, hq, apply_gradients_no_commit apply_upd params N hacc g p₀ s₀
      (accum_of qs) qs.length hg (by omega)]
    cases qs with
    | nil => simp [accum_of, sum_grads]
    | cons q t => simp [accum_of, sum_grads_concat]

/-- C1: under `gradients_accum = N`, a fresh accumulation round fed the
gradient lists `g₁ … g_N` leaves the parameters and the external step
counter unchanged after every strict prefix of calls; the `N`-th call
applies exactly one optimizer update whose effective gradients are the
elementwise sum of `g₁ … g_N`, and increments the step counter by exactly
one. -/
theorem apply_gradients_accumulation
    (apply_upd : List (Tensor × Tensor) → List Tensor) (params : TrainConfig)
    (N : ℕ) (gss : List GradList) (p₀ : List Tensor) (s₀ : ℕ)
    (hacc : params.gradients_accum = some N) (hN : 0 < N)
    (hlen : gss.length = N) (hsh : ∀ g ∈ gss, g.length = p₀.length) :
    (∀ k, k < N →
      (apply_calls apply_upd params (gss.take k) ⟨p₀, s₀, none, 0⟩).vars = p₀ ∧
      (apply_calls apply_upd params (gss.take k) ⟨p₀, s₀, none, 0⟩).step = s₀) ∧
    (apply_calls apply_upd params gss ⟨p₀, s₀, none, 0⟩).vars =
      apply_upd ((sum_grads gss).zip p₀) ∧
    (apply_calls apply_upd params gss ⟨p₀, s₀, none, 0⟩).step = s₀ + 1 := by
  have part1 : ∀ k, k < N →
      apply_calls apply_upd params (gss.take k) ⟨p₀, s₀, none, 0⟩ =
        ⟨p₀, s₀, accum_of (gss.take k), k⟩ := by
    intro k hk
    have hkl : (gss.take k).length = k :=
      List.length_take_of_le (by omega)
    have h := apply_calls_accumulating apply_upd params N hacc p₀ s₀
      (gss.take k) (by rw [hkl]; exact hk)
      (fun x hx => hsh x (List.take_subset _ _ hx))
    rw [h, hkl]
  obtain ⟨qs, g, rfl⟩ : ∃ qs g, gss = qs ++ [g] := by
    rcases gss.eq_nil_or_concat' with h | hx
    · subst h
      simp at hlen
      omega
    · exact hx
  have hqlen : qs.length + 1 = N := by simpa using hlen
  have hg : g.length = p₀.length :=
    hsh g (List.mem_append_right _ (List.mem_singleton.mpr rfl))
  have hq := apply_calls_accumulating apply_upd params N hacc p₀ s₀ qs
    (by omega) (fun x hx => hsh x (List.mem_append_left _ hx))
  have hsplit : apply_calls apply_upd params (qs ++ [g]) ⟨p₀, s₀, none, 0⟩ =
      apply_gradients apply_upd g params
        (apply_calls apply_upd params qs ⟨p₀, s₀, none, 0⟩) := by
    simp [apply_calls, List.foldl_append]
  have hfinal : apply_calls apply_upd params (qs ++ [g]) ⟨p₀, s₀, none, 0⟩ =
      ⟨apply_upd ((sum_grads (qs ++ [g])).zip p₀), s₀ + 1, none, 0⟩ := by
    rw [hsplit, hq, apply_gradients_commit apply_upd params N hacc g p₀ s₀
      (accum_of qs) qs.length hg hqlen]
    cases qs with
    | nil => simp [accum_of, sum_grads]
    | cons q t => simp [accum_of, sum_grads_concat]
  exact ⟨fun k hk => by rw [part1 k hk]; exact ⟨rfl, rfl⟩,
    by rw [hfinal], by rw [hfinal]⟩

/-- A concrete optimizer update rule (plain gradient descent with unit
learning rate: each variable minus its effective gradient) for the C1
witness. -/
def upd0 : List (Tensor × Tensor) → List Tensor :=
  fun prs => prs.map (fun pr => List.zipWith (· - ·) pr.2 pr.1)

/-- A training configuration accumulating gradients over two calls. -/
def cfg_accum2 : TrainConfig := ⟨none, none, some 2⟩

/-- Witness for C1 with `N = 2`, one parameter tensor `[10]` at step `7`,
and gradients `[1]` then `[2]`: after the first call the parameter and step
are unchanged; after the second the parameter is `10 - (1 + 2) = 7` and the
step is `8`. -/
theorem apply_gradients_accumulation_witness :
    (apply_calls upd0 cfg_accum2 [[[(1:ℝ)]]] ⟨[[(10:ℝ)]], 7, none, 0⟩).vars =
      [[(10:ℝ)]] ∧
    (apply_calls upd0 cfg_accum2 [[[(1:ℝ)]]] ⟨[[(10:ℝ)]], 7, none, 0⟩).step = 7 ∧
    (apply_calls upd0 cfg_accum2 [[[(1:ℝ)]], [[(2:ℝ)]]]
      ⟨[[(10:ℝ)]], 7, none, 0⟩).vars = [[(7:ℝ)]] ∧
    (apply_calls upd0 cfg_accum2 [[[(1:ℝ)]], [[(2:ℝ)]]]
      ⟨[[(10:ℝ)]], 7, none, 0⟩).step = 8 := by
  have h := apply_gradients_accumulation upd0 cfg_accum2 2
    [[[(1:ℝ)]], [[(2:ℝ)]]] [[(10:ℝ)]] 7 rfl (by norm_num) rfl ?hsh
  case hsh =>
    intro g hg
    simp only [List.mem_cons, List.mem_singleton, List.not_mem_nil,
      or_false] at hg
    rcases hg with rfl | rfl <;> rfl
  have h1 := h.1 1 (by norm_num)
  refine ⟨by simpa using h1.1, by simpa using h1.2, ?_, by simpa using h.2.2⟩
  have h2 := h.2.1
  rw [h2]
  simp [sum_grads, add_grads, upd0]
  norm_num

/-- Zipping truncates its first argument to the length of the second. -/
lemma zip_eq_zip_take {α β : Type} : ∀ (l₁ : List α) (l₂ : List β),
    l₁.zip l₂ = (l₁.take l₂.length).zip l₂
  | [], l₂ => by simp
  | a :: l₁, [] => by simp
  | a :: l₁, b :: l₂ => by
    simp only [List.zip_cons_cons, List.length_cons, List.take_succ_cons]
    rw [← zip_eq_zip_take l₁ l₂]

/-- C10: `apply_gradients` pairs gradients with variables positionally and
truncates to the shorter list — gradients beyond the variable count are
silently dropped (the call behaves exactly as if they were absent), and on a
commit the variables beyond the gradient count are silently left out of the
update and keep their values; the call is a total function, raising no
error. -/
theorem apply_gradients_truncates
    (apply_upd : List (Tensor × Tensor) → List Tensor)
    (hup : ∀ prs, (apply_upd prs).length = prs.length)
    (gradients : GradList) (p₀ : List Tensor) (s₀ : ℕ) (params : TrainConfig)
    (hacc : params.gradients_accum.getD 1 = 1) :
    (∀ st : OptimState, apply_gradients apply_upd gradients params st =
      apply_gradients apply_upd (gradients.take st.vars.length) params st) ∧
    (gradients.zip p₀).length = min gradients.length p₀.length ∧
    (apply_gradients apply_upd gradients params ⟨p₀, s₀, none, 0⟩).vars.drop
        (gradients.zip p₀).length =
      p₀.drop (gradients.zip p₀).length := by
  refine ⟨?_, ?_, ?_⟩
  · intro st
    unfold apply_gradients
    rw [zip_eq_zip_take gradients st.vars]
  · simp [List.length_zip]
  · have hstep : apply_gradients apply_upd gradients params ⟨p₀, s₀, none, 0⟩ =
        ⟨apply_upd (((gradients.zip p₀).map Prod.fst).zip
            ((gradients.zip p₀).map Prod.snd))
          ++ p₀.drop (gradients.zip p₀).length, s₀ + 1, none, 0⟩ := by
      simp [apply_gradients, delayed_update, hacc]
    rw [hstep]
    have hA : (apply_upd (((gradients.zip p₀).map Prod.fst).zip
        ((gradients.zip p₀).map Prod.snd))).length =
        (gradients.zip p₀).length := by
      rw [hup]
      simp
    show (_ ++ p₀.drop (gradients.zip p₀).length).drop
        (gradients.zip p₀).length = _
    rw [← hA, List.drop_left, hA]

/-- A concrete optimizer update rule (the identity update: every paired
variable keeps its value) for the C10 witness. -/
def upd_id : List (Tensor × Tensor) → List Tensor :=
  fun prs => prs.map Prod.snd

/-- A training configuration with no accumulation (`gradients_accum = 1`). -/
def cfg_accum1 : TrainConfig := ⟨none, none, some 1⟩

/-- Witness for C10 with three gradients and one variable: the call behaves
exactly as with the first gradient alone, the pairing has length
`min 3 1 = 1`, and no error occurs. -/
theorem apply_gradients_truncates_witness :
    apply_gradients upd_id [[(1:ℝ)], [(2:ℝ)], [(3:ℝ)]] cfg_accum1
        ⟨[[(5:ℝ)]], 0, none, 0⟩ =
      apply_gradients upd_id [[(1:ℝ)]] cfg_accum1 ⟨[[(5:ℝ)]], 0, none, 0⟩ ∧
    ([[(1:ℝ)], [(2:ℝ)], [(3:ℝ)]].zip [[(5:ℝ)]]).length = 1 ∧
    (apply_gradients upd_id [[(1:ℝ)], [(2:ℝ)], [(3:ℝ)]] cfg_accum1
        ⟨[[(5:ℝ)]], 0, none, 0⟩).vars.drop 1 = [] := by
  have h := apply_gradients_truncates upd_id
    (fun prs => by simp [upd_id]) [[(1:ℝ)], [(2:ℝ)], [(3:ℝ)]] [[(5:ℝ)]] 0
    cfg_accum1 rfl
  refine ⟨?_, ?_, ?_⟩
  · have h1 := h.1 ⟨[[(5:ℝ)]], 0, none, 0⟩
    simpa using h1
  · simp
  · have h2 := h.2.2
    simpa using h2

end OpenNMT
